import Mathlib

/-!
# Peer-role tracker (`peer/peer.go`)

A shallow embedding of the tracker of `peer/peer.go` and the properties of its
operations `NewTracker`, `Start`, `OnGraft` and `OnPrune`.

Modelling choices.

* `peer.ID` comes from an external library; the tracker only uses it as a map key
  (equality), so it is a type parameter `ID` with decidable equality.
* The Go maps `map[peer.ID]struct{}` carry no values: they are finite sets of keys,
  embedded as `Finset ID`.  `t.Eager[p] = struct{}{}` is `insert p`, `delete(t.Eager, p)`
  is `Finset.erase`, and the comma-ok lookup `_, ok := t.Eager[p]` is `p ∈ t.Eager`.
* A Go method with a pointer receiver that returns `error` becomes a function returning the
  new tracker together with `Option (TrackerError ID)`; `nil` is `none`.
* The fields `host` (used for a log line only) and the two mutexes are left out: the
  operations below are the sequential behaviour, one call completing before the next.  Each
  transition is still written as its two critical sections, in the order of the source.
* Concurrent callers are modelled by interleaving (`Shared`, `Event.step`): a critical
  section reads and writes one set only, under the mutex of that set, so it is one atomic
  step, and a call is in flight between its two steps.
* The sampler is an external collaborator that the tracker holds by reference and calls in
  `Start`; it is passed to `Start` as an argument, so that two calls of `Start` may see
  different answers.
-/

namespace Plumtree

/-- The constant `DefaultFanout` of the source. -/
def DefaultFanout : Int := 10

/-- The interface `Sampler`: `FindPeers(count int) []peer.ID`.  The two notification methods
`NeighborDown` and `NeighborUp` return nothing and are never called by the tracker. -/
structure Sampler (ID : Type) where
  FindPeers : Int → List ID

/-- The two sets of the struct `Tracker`. -/
structure Tracker (ID : Type) where
  Eager : Finset ID
  Lazy : Finset ID

/-- The two errors built with `fmt.Errorf`: `"peer %s already in eager peerset"` and
`"peer %s already in lazy peerset"`, each carrying the peer it names. -/
inductive TrackerError (ID : Type) where
  | alreadyEager (p : ID)
  | alreadyLazy (p : ID)
  deriving DecidableEq, Repr

section Operations

variable {ID : Type} [DecidableEq ID]

instance : DecidableEq (Tracker ID) := fun a b =>
  decidable_of_iff (a.Eager = b.Eager ∧ a.Lazy = b.Lazy)
    (by cases a; cases b; simp)

/-- The constructor `NewTracker`: both maps are made empty. -/
def NewTracker : Tracker ID :=
  { Eager := ∅, Lazy := ∅ }

/-- The method `Start`: ask the sampler for `DefaultFanout` peers and put each of them into
`Eager`, in the order of the returned slice. -/
def Start (t : Tracker ID) (sampler : Sampler ID) : Tracker ID :=
  let eagerPeers := sampler.FindPeers DefaultFanout
  eagerPeers.foldl (fun acc p => { acc with Eager := insert p acc.Eager }) t

/-- First critical section of `moveToEager` (under `lazyMu`): delete `p` from `Lazy` when it
is there. -/
def deleteLazy (t : Tracker ID) (p : ID) : Tracker ID :=
  if p ∈ t.Lazy then { t with Lazy := t.Lazy.erase p } else t

/-- Second critical section of `moveToEager` (under `eagerMu`): fail when `p` is already in
`Eager`, insert it otherwise. -/
def insertEager (t : Tracker ID) (p : ID) : Tracker ID × Option (TrackerError ID) :=
  if p ∈ t.Eager then (t, some (TrackerError.alreadyEager p))
  else ({ t with Eager := insert p t.Eager }, none)

/-- The method `moveToEager`: the two critical sections one after the other. -/
def moveToEager (t : Tracker ID) (p : ID) : Tracker ID × Option (TrackerError ID) :=
  insertEager (deleteLazy t p) p

/-- First critical section of `moveToLazy` (under `eagerMu`): delete `p` from `Eager` when it
is there. -/
def deleteEager (t : Tracker ID) (p : ID) : Tracker ID :=
  if p ∈ t.Eager then { t with Eager := t.Eager.erase p } else t

/-- Second critical section of `moveToLazy` (under `lazyMu`): fail when `p` is already in
`Lazy`, insert it otherwise. -/
def insertLazy (t : Tracker ID) (p : ID) : Tracker ID × Option (TrackerError ID) :=
  if p ∈ t.Lazy then (t, some (TrackerError.alreadyLazy p))
  else ({ t with Lazy := insert p t.Lazy }, none)

/-- The method `moveToLazy`: the two critical sections one after the other. -/
def moveToLazy (t : Tracker ID) (p : ID) : Tracker ID × Option (TrackerError ID) :=
  insertLazy (deleteEager t p) p

/-- The method `OnGraft`. -/
def OnGraft (t : Tracker ID) (p : ID) : Tracker ID × Option (TrackerError ID) :=
  moveToEager t p

/-- The method `OnPrune`. -/
def OnPrune (t : Tracker ID) (p : ID) : Tracker ID × Option (TrackerError ID) :=
  moveToLazy t p

end Operations

/-- A role transition requested by the dissemination layer: a call of `OnGraft` or of
`OnPrune` on a peer. -/
inductive Transition (ID : Type) where
  | graft (p : ID)
  | prune (p : ID)
  deriving DecidableEq

/-- A call of one of the three public operations of a tracker. -/
inductive Call (ID : Type) where
  | start (sampler : Sampler ID)
  | onGraft (p : ID)
  | onPrune (p : ID)

section Runs

variable {ID : Type} [DecidableEq ID]

/-- One transition call, run to completion; the returned error is dropped. -/
def Transition.apply (t : Tracker ID) : Transition ID → Tracker ID
  | Transition.graft p => (OnGraft t p).1
  | Transition.prune p => (OnPrune t p).1

/-- A finite sequence of transition calls, each completing before the next starts. -/
def runTransitions (t : Tracker ID) (calls : List (Transition ID)) : Tracker ID :=
  calls.foldl Transition.apply t

/-- One call of a public operation, run to completion; a returned error is dropped. -/
def Call.apply (t : Tracker ID) : Call ID → Tracker ID
  | Call.start sampler => Start t sampler
  | Call.onGraft p => (OnGraft t p).1
  | Call.onPrune p => (OnPrune t p).1

/-- A finite sequence of calls of public operations, each completing before the next
starts. -/
def runCalls (t : Tracker ID) (calls : List (Call ID)) : Tracker ID :=
  calls.foldl Call.apply t

/-- The peer a transition call is about. -/
def Transition.peer : Transition ID → ID
  | Transition.graft p => p
  | Transition.prune p => p

/-- One transition call, run to completion, together with the error it returns. -/
def Transition.call (t : Tracker ID) : Transition ID → Tracker ID × Option (TrackerError ID)
  | Transition.graft p => OnGraft t p
  | Transition.prune p => OnPrune t p

end Runs

/-- A tracker shared by concurrent callers: the two sets, and the transition calls in
flight, that is the calls that have left their first critical section and have not yet
entered their second. -/
structure Shared (ID : Type) where
  tracker : Tracker ID
  inflight : List (Transition ID)

/-- What the scheduler lets happen next.  The two critical sections of a transition are each
atomic: every access to a set is made under the mutex of that set. -/
inductive Event (ID : Type) where
  | enter (c : Transition ID)
  | complete (i : Nat)

section Interleaving

variable {ID : Type} [DecidableEq ID]

/-- The first critical section of a transition call: the delete from the source set. -/
def Transition.first (t : Tracker ID) : Transition ID → Tracker ID
  | Transition.graft p => deleteLazy t p
  | Transition.prune p => deleteEager t p

/-- The second critical section of a transition call: the test and insert of the destination
set. -/
def Transition.second (t : Tracker ID) :
    Transition ID → Tracker ID × Option (TrackerError ID)
  | Transition.graft p => insertEager t p
  | Transition.prune p => insertLazy t p

/-- One scheduling step.  `enter c`: a new call `c` runs its first critical section and is
then in flight.  `complete i`: the call at position `i` among those in flight runs its second
critical section and returns; nothing happens when there is no such call. -/
def Event.step (s : Shared ID) : Event ID → Shared ID
  | Event.enter c => { tracker := Transition.first s.tracker c, inflight := s.inflight ++ [c] }
  | Event.complete i =>
    match s.inflight[i]? with
    | some c =>
      { tracker := (Transition.second s.tracker c).1, inflight := s.inflight.eraseIdx i }
    | none => s

/-- An interleaving: a finite sequence of scheduling steps. -/
def runEvents (s : Shared ID) (events : List (Event ID)) : Shared ID :=
  events.foldl Event.step s

/-- Two calls oppose each other when one grafts and the other prunes the same peer. -/
def Transition.opposes : Transition ID → Transition ID → Bool
  | Transition.graft p, Transition.prune q => decide (p = q)
  | Transition.prune p, Transition.graft q => decide (p = q)
  | _, _ => false

/-- A step keeps opposite calls apart when it does not let a call enter while a call that
opposes it is in flight. -/
def Event.keepsApart (s : Shared ID) : Event ID → Bool
  | Event.enter c => s.inflight.all (fun d => !Transition.opposes c d)
  | Event.complete _ => true

/-- An interleaving in which a graft and a prune of the same peer are never in flight at the
same time. -/
def keepsApart (s : Shared ID) : List (Event ID) → Bool
  | [] => true
  | e :: es => Event.keepsApart s e && keepsApart (Event.step s e) es

/-- The invariant of interleavings that keep opposite calls apart: the two sets are disjoint,
the peer of a graft in flight is not in `Lazy`, the peer of a prune in flight is not in
`Eager`, and no peer has both a graft and a prune in flight. -/
def Shared.Safe (s : Shared ID) : Prop :=
  Disjoint s.tracker.Eager s.tracker.Lazy ∧
  (∀ p, Transition.graft p ∈ s.inflight → p ∉ s.tracker.Lazy) ∧
  (∀ p, Transition.prune p ∈ s.inflight → p ∉ s.tracker.Eager) ∧
  (∀ p, Transition.graft p ∈ s.inflight → Transition.prune p ∉ s.inflight)

end Interleaving

/-! ## Basic facts about the operations -/

/-- Two trackers with the same two sets are the same tracker. -/
theorem Tracker.eq_of_sets {ID : Type} {a b : Tracker ID} (hE : a.Eager = b.Eager)
    (hL : a.Lazy = b.Lazy) : a = b := by
  cases a
  cases b
  simp_all

section Lemmas

variable {ID : Type} [DecidableEq ID]

theorem deleteLazy_Eager (t : Tracker ID) (p : ID) : (deleteLazy t p).Eager = t.Eager := by
  unfold deleteLazy; split <;> rfl

theorem deleteLazy_Lazy (t : Tracker ID) (p : ID) :
    (deleteLazy t p).Lazy = t.Lazy.erase p := by
  unfold deleteLazy
  split
  · rfl
  · rename_i h; exact (Finset.erase_eq_of_not_mem h).symm

theorem deleteEager_Lazy (t : Tracker ID) (p : ID) : (deleteEager t p).Lazy = t.Lazy := by
  unfold deleteEager; split <;> rfl

theorem deleteEager_Eager (t : Tracker ID) (p : ID) :
    (deleteEager t p).Eager = t.Eager.erase p := by
  unfold deleteEager
  split
  · rfl
  · rename_i h; exact (Finset.erase_eq_of_not_mem h).symm

theorem OnGraft_Lazy (t : Tracker ID) (p : ID) : (OnGraft t p).1.Lazy = t.Lazy.erase p := by
  unfold OnGraft moveToEager insertEager
  split <;> simp [deleteLazy_Lazy]

theorem OnGraft_Eager (t : Tracker ID) (p : ID) :
    (OnGraft t p).1.Eager = insert p t.Eager := by
  unfold OnGraft moveToEager insertEager
  rw [deleteLazy_Eager]
  split
  · rename_i h; simp [deleteLazy_Eager, Finset.insert_eq_of_mem h]
  · simp [deleteLazy_Eager]

theorem OnGraft_result (t : Tracker ID) (p : ID) :
    (OnGraft t p).2 = if p ∈ t.Eager then some (TrackerError.alreadyEager p) else none := by
  unfold OnGraft moveToEager insertEager
  rw [deleteLazy_Eager]
  split <;> rfl

theorem OnPrune_Eager (t : Tracker ID) (p : ID) :
    (OnPrune t p).1.Eager = t.Eager.erase p := by
  unfold OnPrune moveToLazy insertLazy
  split <;> simp [deleteEager_Eager]

theorem OnPrune_Lazy (t : Tracker ID) (p : ID) :
    (OnPrune t p).1.Lazy = insert p t.Lazy := by
  unfold OnPrune moveToLazy insertLazy
  rw [deleteEager_Lazy]
  split
  · rename_i h; simp [deleteEager_Lazy, Finset.insert_eq_of_mem h]
  · simp [deleteEager_Lazy]

theorem OnPrune_result (t : Tracker ID) (p : ID) :
    (OnPrune t p).2 = if p ∈ t.Lazy then some (TrackerError.alreadyLazy p) else none := by
  unfold OnPrune moveToLazy insertLazy
  rw [deleteEager_Lazy]
  split <;> rfl

/-- A transition call keeps the two sets disjoint. -/
theorem Transition.apply_disjoint (t : Tracker ID) (c : Transition ID)
    (h : Disjoint t.Eager t.Lazy) :
    Disjoint (Transition.apply t c).Eager (Transition.apply t c).Lazy := by
  rw [Finset.disjoint_left] at h ⊢
  cases c with
  | graft p =>
    intro a ha hl
    simp only [Transition.apply, OnGraft_Eager, OnGraft_Lazy, Finset.mem_insert,
      Finset.mem_erase] at ha hl
    rcases ha with rfl | ha
    · exact hl.1 rfl
    · exact h ha hl.2
  | prune p =>
    intro a ha hl
    simp only [Transition.apply, OnPrune_Eager, OnPrune_Lazy, Finset.mem_insert,
      Finset.mem_erase] at ha hl
    rcases hl with rfl | hl
    · exact ha.1 rfl
    · exact h ha.2 hl

/-- A run of transition calls keeps the two sets disjoint. -/
theorem runTransitions_disjoint (calls : List (Transition ID)) :
    ∀ t : Tracker ID, Disjoint t.Eager t.Lazy →
      Disjoint (runTransitions t calls).Eager (runTransitions t calls).Lazy := by
  induction calls with
  | nil => intro t h; exact h
  | cons c cs ih =>
    intro t h
    exact ih (Transition.apply t c) (Transition.apply_disjoint t c h)

/-- Inserting a list of peers into `Eager` one by one adds exactly the peers of the list and
leaves `Lazy` alone. -/
theorem foldl_insert_Eager (peers : List ID) :
    ∀ t : Tracker ID,
      (peers.foldl (fun acc p => { acc with Eager := insert p acc.Eager }) t).Eager
          = t.Eager ∪ peers.toFinset ∧
      (peers.foldl (fun acc p => { acc with Eager := insert p acc.Eager }) t).Lazy
          = t.Lazy := by
  induction peers with
  | nil => intro t; simp
  | cons q qs ih =>
    intro t
    rw [List.foldl_cons]
    obtain ⟨h1, h2⟩ := ih { t with Eager := insert q t.Eager }
    refine ⟨?_, h2⟩
    rw [h1]
    ext a
    simp only [Finset.mem_union, Finset.mem_insert, List.toFinset_cons]
    tauto

theorem Start_Eager (t : Tracker ID) (sampler : Sampler ID) :
    (Start t sampler).Eager = t.Eager ∪ (sampler.FindPeers 10).toFinset :=
  (foldl_insert_Eager (sampler.FindPeers 10) t).1

theorem Start_Lazy (t : Tracker ID) (sampler : Sampler ID) :
    (Start t sampler).Lazy = t.Lazy :=
  (foldl_insert_Eager (sampler.FindPeers 10) t).2

theorem Transition.apply_eq_call (t : Tracker ID) (c : Transition ID) :
    Transition.apply t c = (Transition.call t c).1 := by
  cases c <;> rfl

theorem Transition.call_Eager (t : Tracker ID) (c : Transition ID) (q : ID)
    (h : q ≠ Transition.peer c) :
    (q ∈ (Transition.call t c).1.Eager ↔ q ∈ t.Eager) := by
  cases c with
  | graft p =>
    simp only [Transition.call, Transition.peer, OnGraft_Eager, Finset.mem_insert] at h ⊢
    simp [h]
  | prune p =>
    simp only [Transition.call, Transition.peer, OnPrune_Eager, Finset.mem_erase] at h ⊢
    simp [h]

theorem Transition.call_Lazy (t : Tracker ID) (c : Transition ID) (q : ID)
    (h : q ≠ Transition.peer c) :
    (q ∈ (Transition.call t c).1.Lazy ↔ q ∈ t.Lazy) := by
  cases c with
  | graft p =>
    simp only [Transition.call, Transition.peer, OnGraft_Lazy, Finset.mem_erase] at h ⊢
    simp [h]
  | prune p =>
    simp only [Transition.call, Transition.peer, OnPrune_Lazy, Finset.mem_insert] at h ⊢
    simp [h]

/-- What a call returns is decided by the membership of its own peer in the two sets. -/
theorem Transition.call_result_congr (t u : Tracker ID) (c : Transition ID)
    (hE : Transition.peer c ∈ u.Eager ↔ Transition.peer c ∈ t.Eager)
    (hL : Transition.peer c ∈ u.Lazy ↔ Transition.peer c ∈ t.Lazy) :
    (Transition.call u c).2 = (Transition.call t c).2 := by
  cases c with
  | graft p =>
    simp only [Transition.call, Transition.peer, OnGraft_result] at hE ⊢
    by_cases h : p ∈ t.Eager <;> simp [h, hE]
  | prune p =>
    simp only [Transition.call, Transition.peer, OnPrune_result] at hL ⊢
    by_cases h : p ∈ t.Lazy <;> simp [h, hL]

/-- Membership of any peer after a call, in terms of the state before: in `Eager`. -/
theorem Transition.mem_call_Eager (t : Tracker ID) (c : Transition ID) (a : ID) :
    a ∈ (Transition.call t c).1.Eager ↔
      (c = Transition.graft a ∨ (a ∈ t.Eager ∧ c ≠ Transition.prune a)) := by
  cases c with
  | graft p =>
    simp only [Transition.call, OnGraft_Eager, Finset.mem_insert]
    constructor
    · rintro (rfl | h)
      · exact Or.inl rfl
      · exact Or.inr ⟨h, by simp⟩
    · rintro (h | h)
      · left; injection h with h; exact h.symm
      · exact Or.inr h.1
  | prune p =>
    simp only [Transition.call, OnPrune_Eager, Finset.mem_erase]
    constructor
    · rintro ⟨hne, h⟩
      refine Or.inr ⟨h, ?_⟩
      intro hc
      injection hc with hc
      exact hne hc.symm
    · rintro (h | ⟨h, hne⟩)
      · cases h
      · refine ⟨?_, h⟩
        rintro rfl
        exact hne rfl

/-- Membership of any peer after a call, in terms of the state before: in `Lazy`. -/
theorem Transition.mem_call_Lazy (t : Tracker ID) (c : Transition ID) (a : ID) :
    a ∈ (Transition.call t c).1.Lazy ↔
      (c = Transition.prune a ∨ (a ∈ t.Lazy ∧ c ≠ Transition.graft a)) := by
  cases c with
  | prune p =>
    simp only [Transition.call, OnPrune_Lazy, Finset.mem_insert]
    constructor
    · rintro (rfl | h)
      · exact Or.inl rfl
      · exact Or.inr ⟨h, by simp⟩
    · rintro (h | h)
      · left; injection h with h; exact h.symm
      · exact Or.inr h.1
  | graft p =>
    simp only [Transition.call, OnGraft_Lazy, Finset.mem_erase]
    constructor
    · rintro ⟨hne, h⟩
      refine Or.inr ⟨h, ?_⟩
      intro hc
      injection hc with hc
      exact hne hc.symm
    · rintro (h | ⟨h, hne⟩)
      · cases h
      · refine ⟨?_, h⟩
        rintro rfl
        exact hne rfl

theorem insertEager_Eager (t : Tracker ID) (p : ID) :
    (insertEager t p).1.Eager = insert p t.Eager := by
  unfold insertEager
  split
  · rename_i h; simp [Finset.insert_eq_of_mem h]
  · rfl

theorem insertEager_Lazy (t : Tracker ID) (p : ID) : (insertEager t p).1.Lazy = t.Lazy := by
  unfold insertEager; split <;> rfl

theorem insertLazy_Lazy (t : Tracker ID) (p : ID) :
    (insertLazy t p).1.Lazy = insert p t.Lazy := by
  unfold insertLazy
  split
  · rename_i h; simp [Finset.insert_eq_of_mem h]
  · rfl

theorem insertLazy_Eager (t : Tracker ID) (p : ID) : (insertLazy t p).1.Eager = t.Eager := by
  unfold insertLazy; split <;> rfl

/-- A call that enters and completes with nothing in between is the sequential call. -/
theorem Event.step_enter_complete (t : Tracker ID) (c : Transition ID) :
    runEvents { tracker := t, inflight := [] } [Event.enter c, Event.complete 0]
      = { tracker := (Transition.call t c).1, inflight := [] } := by
  cases c <;> rfl

/-- A step that keeps opposite calls apart preserves the invariant. -/
theorem Event.step_safe (s : Shared ID) (e : Event ID) (hs : Shared.Safe s)
    (he : Event.keepsApart s e = true) : Shared.Safe (Event.step s e) := by
  unfold Shared.Safe at hs ⊢
  obtain ⟨hd, hg, hp, hx⟩ := hs
  rw [Finset.disjoint_left] at hd
  cases e with
  | enter c =>
    have hopp : ∀ d ∈ s.inflight, Transition.opposes c d = false := by
      simpa [Event.keepsApart, List.all_eq_true] using he
    cases c with
    | graft p =>
      have hnp : Transition.prune p ∉ s.inflight := by
        intro hm
        have := hopp _ hm
        simp [Transition.opposes] at this
      simp only [Event.step, Transition.first, deleteLazy_Eager, deleteLazy_Lazy,
        List.mem_append, List.mem_singleton, Finset.disjoint_left, Finset.mem_erase]
      refine ⟨?_, ?_, ?_, ?_⟩
      · intro a ha hl
        exact hd ha hl.2
      · rintro q (hq | hq) hl
        · exact hg q hq hl.2
        · injection hq with hq
          exact hl.1 hq
      · rintro q (hq | hq)
        · exact hp q hq
        · cases hq
      · rintro q (hq | hq) (hq2 | hq2)
        · exact hx q hq hq2
        · cases hq2
        · injection hq with hq
          subst hq
          exact hnp hq2
        · cases hq2
    | prune p =>
      have hng : Transition.graft p ∉ s.inflight := by
        intro hm
        have := hopp _ hm
        simp [Transition.opposes] at this
      simp only [Event.step, Transition.first, deleteEager_Eager, deleteEager_Lazy,
        List.mem_append, List.mem_singleton, Finset.disjoint_left, Finset.mem_erase]
      refine ⟨?_, ?_, ?_, ?_⟩
      · intro a ha hl
        exact hd ha.2 hl
      · rintro q (hq | hq)
        · exact hg q hq
        · cases hq
      · rintro q (hq | hq) hl
        · exact hp q hq hl.2
        · injection hq with hq
          exact hl.1 hq
      · rintro q (hq | hq) (hq2 | hq2)
        · exact hx q hq hq2
        · injection hq2 with hq2
          subst hq2
          exact hng hq
        · cases hq
        · cases hq
  | complete i =>
    simp only [Event.step]
    split
    · rename_i c hget
      have hc : c ∈ s.inflight := List.getElem?_mem hget
      have hsub : ∀ d, d ∈ s.inflight.eraseIdx i → d ∈ s.inflight :=
        fun d h => List.mem_of_mem_eraseIdx h
      cases c with
      | graft p =>
        simp only [Transition.second, insertEager_Eager, insertEager_Lazy,
          Finset.disjoint_left, Finset.mem_insert]
        refine ⟨?_, ?_, ?_, ?_⟩
        · rintro a (rfl | ha) hl
          · exact hg a hc hl
          · exact hd ha hl
        · intro q hq
          exact hg q (hsub _ hq)
        · rintro q hq (rfl | he)
          · exact hx q hc (hsub _ hq)
          · exact hp q (hsub _ hq) he
        · intro q hq hq2
          exact hx q (hsub _ hq) (hsub _ hq2)
      | prune p =>
        simp only [Transition.second, insertLazy_Eager, insertLazy_Lazy,
          Finset.disjoint_left, Finset.mem_insert]
        refine ⟨?_, ?_, ?_, ?_⟩
        · rintro a ha (rfl | hl)
          · exact hp a hc ha
          · exact hd ha hl
        · rintro q hq (rfl | hl)
          · exact hx q (hsub _ hq) hc
          · exact hg q (hsub _ hq) hl
        · intro q hq
          exact hp q (hsub _ hq)
        · intro q hq hq2
          exact hx q (hsub _ hq) (hsub _ hq2)
    · exact ⟨Finset.disjoint_left.mpr hd, hg, hp, hx⟩

/-- An interleaving that keeps opposite calls apart preserves the invariant. -/
theorem runEvents_safe (events : List (Event ID)) :
    ∀ s : Shared ID, Shared.Safe s → keepsApart s events = true →
      Shared.Safe (runEvents s events) := by
  induction events with
  | nil => intro s hs _; exact hs
  | cons e es ih =>
    intro s hs hk
    simp only [keepsApart, Bool.and_eq_true] at hk
    exact ih (Event.step s e) (Event.step_safe s e hs hk.1) hk.2

end Lemmas

/-! ## The claims -/

section Claims

variable {ID : Type} [DecidableEq ID]

/-- C1. Disjointness: after any finite sequence of `OnGraft` and `OnPrune` calls run one
after another on a newly constructed tracker, on any peers and whatever each call returns,
no peer is in both `Eager` and `Lazy`. -/
theorem C1_disjoint_after_transitions (calls : List (Transition ID)) (p : ID) :
    ¬ (p ∈ (runTransitions (NewTracker : Tracker ID) calls).Eager ∧
       p ∈ (runTransitions (NewTracker : Tracker ID) calls).Lazy) := by
  intro ⟨he, hl⟩
  have hd := runTransitions_disjoint calls (NewTracker : Tracker ID)
    (by simp [NewTracker])
  exact Finset.disjoint_left.mp hd he hl

/-- C2. `OnGraft p` returns an error exactly when `p` is in `Eager` before the call, and
`OnPrune p` returns an error exactly when `p` is in `Lazy` before the call; in every other
case the call returns `nil`. -/
theorem C2_error_iff_already_member (t : Tracker ID) (p : ID) :
    ((OnGraft t p).2 ≠ none ↔ p ∈ t.Eager) ∧
    ((OnGraft t p).2 = none ↔ p ∉ t.Eager) ∧
    ((OnPrune t p).2 ≠ none ↔ p ∈ t.Lazy) ∧
    ((OnPrune t p).2 = none ↔ p ∉ t.Lazy) := by
  rw [OnGraft_result, OnPrune_result]
  refine ⟨?_, ?_, ?_, ?_⟩ <;> split <;> simp_all

/-- C3, the claim as stated fails: after `OnPrune "A"` and a `Start` whose sampler returns
`["A"]`, the peer `"A"` is in `Lazy` (and in `Eager`), and `OnGraft "A"` returns the
already-eager error. -/
theorem C3_graft_of_lazy_peer_can_fail :
    "A" ∈ (runCalls (NewTracker : Tracker String)
        [Call.onPrune "A", Call.start ⟨fun _ => ["A"]⟩]).Lazy ∧
    (OnGraft (runCalls (NewTracker : Tracker String)
        [Call.onPrune "A", Call.start ⟨fun _ => ["A"]⟩]) "A").2
      = some (TrackerError.alreadyEager "A") := by
  decide

/-- C3, amended. Graft clears Lazy: in every state produced by a finite sequence of calls of
`Start` (with any sampler results), `OnGraft` and `OnPrune` on a new tracker, for every peer
`p` that is in `Lazy`, after `OnGraft p` the peer is not in `Lazy` and is in `Eager`; the
call returns `nil` exactly when `p` was not also in `Eager` before it. -/
theorem C3_graft_clears_lazy (calls : List (Call ID)) (p : ID)
    (h : p ∈ (runCalls (NewTracker : Tracker ID) calls).Lazy) :
    p ∉ (OnGraft (runCalls (NewTracker : Tracker ID) calls) p).1.Lazy ∧
    p ∈ (OnGraft (runCalls (NewTracker : Tracker ID) calls) p).1.Eager ∧
    ((OnGraft (runCalls (NewTracker : Tracker ID) calls) p).2 = none ↔
      p ∉ (runCalls (NewTracker : Tracker ID) calls).Eager) := by
  have _ := h
  rw [OnGraft_Lazy, OnGraft_Eager, OnGraft_result]
  refine ⟨by simp, by simp, ?_⟩
  split <;> simp_all

theorem C3_graft_clears_lazy_witness :
    "B" ∈ (runCalls (NewTracker : Tracker String)
        [Call.start ⟨fun _ => ["A"]⟩, Call.onPrune "B"]).Lazy ∧
    "B" ∉ (OnGraft (runCalls (NewTracker : Tracker String)
        [Call.start ⟨fun _ => ["A"]⟩, Call.onPrune "B"]) "B").1.Lazy ∧
    "B" ∈ (OnGraft (runCalls (NewTracker : Tracker String)
        [Call.start ⟨fun _ => ["A"]⟩, Call.onPrune "B"]) "B").1.Eager ∧
    ((OnGraft (runCalls (NewTracker : Tracker String)
        [Call.start ⟨fun _ => ["A"]⟩, Call.onPrune "B"]) "B").2 = none ↔
      "B" ∉ (runCalls (NewTracker : Tracker String)
        [Call.start ⟨fun _ => ["A"]⟩, Call.onPrune "B"]).Eager) :=
  ⟨by decide,
   C3_graft_clears_lazy [Call.start ⟨fun _ => ["A"]⟩, Call.onPrune "B"] "B" (by decide)⟩

/-- C4. Prune clears Eager: in every state reached from a new tracker by a finite sequence of
completed `OnGraft`/`OnPrune` calls, for every peer `p` that is in `Eager`, `OnPrune p`
returns `nil` and afterwards `p` is not in `Eager` and is in `Lazy`. -/
theorem C4_prune_clears_eager (calls : List (Transition ID)) (p : ID)
    (h : p ∈ (runTransitions (NewTracker : Tracker ID) calls).Eager) :
    (OnPrune (runTransitions (NewTracker : Tracker ID) calls) p).2 = none ∧
    p ∉ (OnPrune (runTransitions (NewTracker : Tracker ID) calls) p).1.Eager ∧
    p ∈ (OnPrune (runTransitions (NewTracker : Tracker ID) calls) p).1.Lazy := by
  have hd := runTransitions_disjoint calls (NewTracker : Tracker ID)
    (by simp [NewTracker])
  have hl : p ∉ (runTransitions (NewTracker : Tracker ID) calls).Lazy :=
    Finset.disjoint_left.mp hd h
  rw [OnPrune_Lazy, OnPrune_Eager, OnPrune_result]
  exact ⟨by simp [hl], by simp, by simp⟩

theorem C4_prune_clears_eager_witness :
    "A" ∈ (runTransitions (NewTracker : Tracker String)
        [Transition.prune "A", Transition.graft "B", Transition.graft "A"]).Eager ∧
    (OnPrune (runTransitions (NewTracker : Tracker String)
        [Transition.prune "A", Transition.graft "B", Transition.graft "A"]) "A").2 = none ∧
    "A" ∉ (OnPrune (runTransitions (NewTracker : Tracker String)
        [Transition.prune "A", Transition.graft "B", Transition.graft "A"]) "A").1.Eager ∧
    "A" ∈ (OnPrune (runTransitions (NewTracker : Tracker String)
        [Transition.prune "A", Transition.graft "B", Transition.graft "A"]) "A").1.Lazy :=
  ⟨by decide,
   C4_prune_clears_eager
     [Transition.prune "A", Transition.graft "B", Transition.graft "A"] "A" (by decide)⟩

/-- C5, the claim as stated fails: in the state reached by `OnPrune "A"` and a `Start` whose
sampler returns `["A"]`, where `"A"` is in both sets, `OnPrune "A"` fails with the
already-lazy error and has deleted `"A"` from `Eager`, and `OnGraft "A"` fails with the
already-eager error and has deleted `"A"` from `Lazy`. -/
theorem C5_failed_transition_can_delete :
    ((OnPrune (runCalls (NewTracker : Tracker String)
        [Call.onPrune "A", Call.start ⟨fun _ => ["A"]⟩]) "A").2
      = some (TrackerError.alreadyLazy "A") ∧
     (OnPrune (runCalls (NewTracker : Tracker String)
        [Call.onPrune "A", Call.start ⟨fun _ => ["A"]⟩]) "A").1.Eager
      ≠ (runCalls (NewTracker : Tracker String)
        [Call.onPrune "A", Call.start ⟨fun _ => ["A"]⟩]).Eager) ∧
    ((OnGraft (runCalls (NewTracker : Tracker String)
        [Call.onPrune "A", Call.start ⟨fun _ => ["A"]⟩]) "A").2
      = some (TrackerError.alreadyEager "A") ∧
     (OnGraft (runCalls (NewTracker : Tracker String)
        [Call.onPrune "A", Call.start ⟨fun _ => ["A"]⟩]) "A").1.Lazy
      ≠ (runCalls (NewTracker : Tracker String)
        [Call.onPrune "A", Call.start ⟨fun _ => ["A"]⟩]).Lazy) := by
  decide

/-- C5, amended. A failed transition leaves the destination set untouched: if `OnPrune p`
fails with the already-lazy error then `Lazy` is exactly as before and `Eager` is as before
with `p` deleted, so the whole state is as before when `p` was not in `Eager`; and if
`OnGraft p` fails with the already-eager error then `Eager` is exactly as before and `Lazy`
is as before with `p` deleted, so the whole state is as before when `p` was not in `Lazy`. -/
theorem C5_failed_transition_effect (t : Tracker ID) (p : ID) :
    ((OnPrune t p).2 = some (TrackerError.alreadyLazy p) →
      (OnPrune t p).1.Lazy = t.Lazy ∧ (OnPrune t p).1.Eager = t.Eager.erase p ∧
      (p ∉ t.Eager → (OnPrune t p).1 = t)) ∧
    ((OnGraft t p).2 = some (TrackerError.alreadyEager p) →
      (OnGraft t p).1.Eager = t.Eager ∧ (OnGraft t p).1.Lazy = t.Lazy.erase p ∧
      (p ∉ t.Lazy → (OnGraft t p).1 = t)) := by
  constructor
  · intro h
    rw [OnPrune_result] at h
    have hp : p ∈ t.Lazy := by
      by_contra hn
      simp [hn] at h
    have hL : (OnPrune t p).1.Lazy = t.Lazy := by
      rw [OnPrune_Lazy, Finset.insert_eq_of_mem hp]
    refine ⟨hL, OnPrune_Eager t p, ?_⟩
    intro hne
    have hE : (OnPrune t p).1.Eager = t.Eager := by
      rw [OnPrune_Eager, Finset.erase_eq_of_not_mem hne]
    cases t
    cases hr : (OnPrune _ p).1
    simp_all
  · intro h
    rw [OnGraft_result] at h
    have hp : p ∈ t.Eager := by
      by_contra hn
      simp [hn] at h
    have hE : (OnGraft t p).1.Eager = t.Eager := by
      rw [OnGraft_Eager, Finset.insert_eq_of_mem hp]
    refine ⟨hE, OnGraft_Lazy t p, ?_⟩
    intro hne
    have hL : (OnGraft t p).1.Lazy = t.Lazy := by
      rw [OnGraft_Lazy, Finset.erase_eq_of_not_mem hne]
    cases t
    cases hr : (OnGraft _ p).1
    simp_all

theorem C5_failed_transition_effect_witness :
    ((OnPrune (⟨{"B"}, {"A"}⟩ : Tracker String) "A").2
        = some (TrackerError.alreadyLazy "A") ∧
      "A" ∉ (⟨{"B"}, {"A"}⟩ : Tracker String).Eager ∧
      (OnPrune (⟨{"B"}, {"A"}⟩ : Tracker String) "A").1 = ⟨{"B"}, {"A"}⟩) ∧
    ((OnGraft (⟨{"A"}, {"B"}⟩ : Tracker String) "A").2
        = some (TrackerError.alreadyEager "A") ∧
      "A" ∉ (⟨{"A"}, {"B"}⟩ : Tracker String).Lazy ∧
      (OnGraft (⟨{"A"}, {"B"}⟩ : Tracker String) "A").1 = ⟨{"A"}, {"B"}⟩) :=
  ⟨⟨by decide, by decide,
    ((C5_failed_transition_effect (⟨{"B"}, {"A"}⟩ : Tracker String) "A").1
      (by decide)).2.2 (by decide)⟩,
   ⟨by decide, by decide,
    ((C5_failed_transition_effect (⟨{"A"}, {"B"}⟩ : Tracker String) "A").2
      (by decide)).2.2 (by decide)⟩⟩

/-- C6. The desired end state always holds: in every state and for every peer `p`, after
`OnGraft p` returns, with success or with the already-eager error, `p` is in `Eager` and not
in `Lazy`; after `OnPrune p` returns, with success or with the already-lazy error, `p` is in
`Lazy` and not in `Eager`. -/
theorem C6_end_state_holds (t : Tracker ID) (p : ID) :
    (((OnGraft t p).2 = none ∨ (OnGraft t p).2 = some (TrackerError.alreadyEager p)) ∧
      p ∈ (OnGraft t p).1.Eager ∧ p ∉ (OnGraft t p).1.Lazy) ∧
    (((OnPrune t p).2 = none ∨ (OnPrune t p).2 = some (TrackerError.alreadyLazy p)) ∧
      p ∈ (OnPrune t p).1.Lazy ∧ p ∉ (OnPrune t p).1.Eager) := by
  rw [OnGraft_Eager, OnGraft_Lazy, OnGraft_result, OnPrune_Eager, OnPrune_Lazy,
    OnPrune_result]
  refine ⟨⟨?_, by simp, by simp⟩, ⟨?_, by simp, by simp⟩⟩
  · by_cases h : p ∈ t.Eager <;> simp [h]
  · by_cases h : p ∈ t.Lazy <;> simp [h]

/-- C7. Idempotent failure: in every state in which `p` is not in `Eager`, two `OnGraft p`
calls in direct succession give success and then the already-eager error, and the second
call leaves both sets as the first call left them; in every state in which `p` is not in
`Lazy`, two `OnPrune p` calls in direct succession give success and then the already-lazy
error, and the second call changes neither set. -/
theorem C7_idempotent_failure (t : Tracker ID) (p : ID) :
    (p ∉ t.Eager →
      (OnGraft t p).2 = none ∧
      (OnGraft (OnGraft t p).1 p).2 = some (TrackerError.alreadyEager p) ∧
      (OnGraft (OnGraft t p).1 p).1 = (OnGraft t p).1) ∧
    (p ∉ t.Lazy →
      (OnPrune t p).2 = none ∧
      (OnPrune (OnPrune t p).1 p).2 = some (TrackerError.alreadyLazy p) ∧
      (OnPrune (OnPrune t p).1 p).1 = (OnPrune t p).1) := by
  constructor
  · intro h
    have h1 : p ∈ (OnGraft t p).1.Eager := by rw [OnGraft_Eager]; simp
    have h2 : p ∉ (OnGraft t p).1.Lazy := by rw [OnGraft_Lazy]; simp
    refine ⟨by rw [OnGraft_result]; simp [h], by rw [OnGraft_result]; simp [h1], ?_⟩
    have hE := OnGraft_Eager (OnGraft t p).1 p
    have hL := OnGraft_Lazy (OnGraft t p).1 p
    rw [Finset.insert_eq_of_mem h1] at hE
    rw [Finset.erase_eq_of_not_mem h2] at hL
    cases hs : (OnGraft t p).1
    cases hr : (OnGraft (OnGraft t p).1 p).1
    simp_all
  · intro h
    have h1 : p ∈ (OnPrune t p).1.Lazy := by rw [OnPrune_Lazy]; simp
    have h2 : p ∉ (OnPrune t p).1.Eager := by rw [OnPrune_Eager]; simp
    refine ⟨by rw [OnPrune_result]; simp [h], by rw [OnPrune_result]; simp [h1], ?_⟩
    have hE := OnPrune_Eager (OnPrune t p).1 p
    have hL := OnPrune_Lazy (OnPrune t p).1 p
    rw [Finset.insert_eq_of_mem h1] at hL
    rw [Finset.erase_eq_of_not_mem h2] at hE
    cases hs : (OnPrune t p).1
    cases hr : (OnPrune (OnPrune t p).1 p).1
    simp_all

theorem C7_idempotent_failure_witness :
    ("A" ∉ (⟨{"B"}, {"A"}⟩ : Tracker String).Eager ∧
      "A" ∉ (⟨{"A"}, {"B"}⟩ : Tracker String).Lazy) ∧
    ((OnGraft (⟨{"B"}, {"A"}⟩ : Tracker String) "A").2 = none ∧
      (OnGraft (OnGraft (⟨{"B"}, {"A"}⟩ : Tracker String) "A").1 "A").2
        = some (TrackerError.alreadyEager "A") ∧
      (OnGraft (OnGraft (⟨{"B"}, {"A"}⟩ : Tracker String) "A").1 "A").1
        = (OnGraft (⟨{"B"}, {"A"}⟩ : Tracker String) "A").1) ∧
    ((OnPrune (⟨{"A"}, {"B"}⟩ : Tracker String) "A").2 = none ∧
      (OnPrune (OnPrune (⟨{"A"}, {"B"}⟩ : Tracker String) "A").1 "A").2
        = some (TrackerError.alreadyLazy "A") ∧
      (OnPrune (OnPrune (⟨{"A"}, {"B"}⟩ : Tracker String) "A").1 "A").1
        = (OnPrune (⟨{"A"}, {"B"}⟩ : Tracker String) "A").1) :=
  ⟨by decide,
   (C7_idempotent_failure (⟨{"B"}, {"A"}⟩ : Tracker String) "A").1 (by decide),
   (C7_idempotent_failure (⟨{"A"}, {"B"}⟩ : Tracker String) "A").2 (by decide)⟩

/-- C8. Round trip: in every state in which `p` is not already in `Eager`, the three calls
`OnGraft p`, `OnPrune p`, `OnGraft p` made in direct succession each return `nil`. -/
theorem C8_round_trip (t : Tracker ID) (p : ID) (h : p ∉ t.Eager) :
    (OnGraft t p).2 = none ∧
    (OnPrune (OnGraft t p).1 p).2 = none ∧
    (OnGraft (OnPrune (OnGraft t p).1 p).1 p).2 = none := by
  have h1 : p ∉ (OnGraft t p).1.Lazy := by rw [OnGraft_Lazy]; simp
  have h2 : p ∉ (OnPrune (OnGraft t p).1 p).1.Eager := by rw [OnPrune_Eager]; simp
  refine ⟨?_, ?_, ?_⟩
  · rw [OnGraft_result]; simp [h]
  · rw [OnPrune_result]; simp [h1]
  · rw [OnGraft_result]; simp [h2]

theorem C8_round_trip_witness :
    "A" ∉ (NewTracker : Tracker String).Eager ∧
    (OnGraft (NewTracker : Tracker String) "A").2 = none ∧
    (OnPrune (OnGraft (NewTracker : Tracker String) "A").1 "A").2 = none ∧
    (OnGraft (OnPrune (OnGraft (NewTracker : Tracker String) "A").1 "A").1 "A").2 = none :=
  ⟨by decide, C8_round_trip (NewTracker : Tracker String) "A" (by decide)⟩

/-- C9. `Start` seeds `Eager` with exactly the sampler's candidates: `Start` asks the sampler
for `DefaultFanout = 10` peers; in every state and for every sampler, after `Start` the set
`Eager` is the previous `Eager` together with exactly the peers of the returned sequence, and
`Lazy` is unchanged.  On a new tracker whose sampler returns `[a, b, c]`, afterwards
`Eager = {a, b, c}` and `Lazy = {}`. -/
theorem C9_start_seeds_eager (t : Tracker ID) (sampler : Sampler ID) (a b c : ID) :
    DefaultFanout = 10 ∧
    (∀ q, q ∈ (Start t sampler).Eager ↔ q ∈ t.Eager ∨ q ∈ sampler.FindPeers 10) ∧
    (Start t sampler).Lazy = t.Lazy ∧
    (Start (NewTracker : Tracker ID) ⟨fun _ => [a, b, c]⟩).Eager = {a, b, c} ∧
    (Start (NewTracker : Tracker ID) ⟨fun _ => [a, b, c]⟩).Lazy = ∅ := by
  refine ⟨rfl, ?_, Start_Lazy t sampler, ?_, ?_⟩
  · intro q
    rw [Start_Eager]
    simp
  · rw [Start_Eager]
    ext q
    simp [NewTracker]
  · rw [Start_Lazy]
    rfl

/-- C10, the claim as stated fails: on a new tracker whose sampler returns the two-element
sequence `["A", "A"]`, after `Start` the set `Eager` holds one peer. -/
theorem C10_start_count_with_repeated_peer :
    (Sampler.FindPeers (⟨fun _ => ["A", "A"]⟩ : Sampler String) DefaultFanout).length = 2 ∧
    (Start (NewTracker : Tracker String) ⟨fun _ => ["A", "A"]⟩).Eager.card = 1 := by
  decide

/-- C10, amended. Initialization count: for a new tracker, after `Start` the number of peers
in `Eager` is the number of distinct peers in the sequence the sampler returned; it is never
more than the length of that sequence, and it is exactly the length when the sequence has no
repeated peer. -/
theorem C10_start_count (sampler : Sampler ID) :
    (Start (NewTracker : Tracker ID) sampler).Eager.card
      = (sampler.FindPeers DefaultFanout).dedup.length ∧
    (Start (NewTracker : Tracker ID) sampler).Eager.card
      ≤ (sampler.FindPeers DefaultFanout).length ∧
    ((sampler.FindPeers DefaultFanout).Nodup →
      (Start (NewTracker : Tracker ID) sampler).Eager.card
        = (sampler.FindPeers DefaultFanout).length) := by
  have hE : (Start (NewTracker : Tracker ID) sampler).Eager
      = (sampler.FindPeers DefaultFanout).toFinset := by
    rw [Start_Eager]
    simp [NewTracker, DefaultFanout]
  rw [hE]
  exact ⟨List.card_toFinset _, List.toFinset_card_le _,
    fun hn => List.toFinset_card_of_nodup hn⟩

theorem C10_start_count_witness :
    (Sampler.FindPeers (⟨fun _ => ["A", "B", "C"]⟩ : Sampler String) DefaultFanout).Nodup ∧
    (Start (NewTracker : Tracker String) ⟨fun _ => ["A", "B", "C"]⟩).Eager.card
      = (Sampler.FindPeers (⟨fun _ => ["A", "B", "C"]⟩ : Sampler String)
          DefaultFanout).length :=
  ⟨by decide, (C10_start_count (⟨fun _ => ["A", "B", "C"]⟩ : Sampler String)).2.2 (by decide)⟩

/-- C11. Initialization bound: for a new tracker and any sampler whose answer to
`FindPeers(DefaultFanout)` has at most `DefaultFanout` peers (so for any sampler that never
returns more peers than it is asked for), after `Start` the set `Eager` holds at most
`DefaultFanout = 10` peers. -/
theorem C11_start_bound (sampler : Sampler ID)
    (h : ((sampler.FindPeers DefaultFanout).length : Int) ≤ DefaultFanout) :
    ((Start (NewTracker : Tracker ID) sampler).Eager.card : Int) ≤ DefaultFanout ∧
    (Start (NewTracker : Tracker ID) sampler).Eager.card ≤ 10 := by
  have hE : (Start (NewTracker : Tracker ID) sampler).Eager
      = (sampler.FindPeers DefaultFanout).toFinset := by
    rw [Start_Eager]
    simp [NewTracker, DefaultFanout]
  have hc := List.toFinset_card_le (sampler.FindPeers DefaultFanout)
  rw [hE]
  unfold DefaultFanout at h hc ⊢
  omega

theorem C11_start_bound_witness :
    ((Sampler.FindPeers (⟨fun n => (["A", "B", "C"]).take n.toNat⟩ : Sampler String)
        DefaultFanout).length : Int) ≤ DefaultFanout ∧
    ((Start (NewTracker : Tracker String)
        ⟨fun n => (["A", "B", "C"]).take n.toNat⟩).Eager.card : Int) ≤ DefaultFanout ∧
    (Start (NewTracker : Tracker String)
        ⟨fun n => (["A", "B", "C"]).take n.toNat⟩).Eager.card ≤ 10 :=
  ⟨by decide,
   C11_start_bound (⟨fun n => (["A", "B", "C"]).take n.toNat⟩ : Sampler String) (by decide)⟩

/-- C12. `Start` does no cross-set check: in every state and for every peer `p` that is in
`Lazy`, if the sequence returned by the sampler contains `p` then after `Start` the peer `p`
is in both `Eager` and `Lazy`, so the two sets are not disjoint after `Start`. -/
theorem C12_start_no_cross_check (t : Tracker ID) (sampler : Sampler ID) (p : ID)
    (hp : p ∈ t.Lazy) (hs : p ∈ sampler.FindPeers DefaultFanout) :
    p ∈ (Start t sampler).Eager ∧ p ∈ (Start t sampler).Lazy ∧
    ¬ Disjoint (Start t sampler).Eager (Start t sampler).Lazy := by
  have hE : p ∈ (Start t sampler).Eager := by
    rw [Start_Eager]
    exact Finset.mem_union_right _ (List.mem_toFinset.mpr hs)
  have hL : p ∈ (Start t sampler).Lazy := by
    rw [Start_Lazy]
    exact hp
  exact ⟨hE, hL, fun hd => Finset.disjoint_left.mp hd hE hL⟩

theorem C12_start_no_cross_check_witness :
    ("A" ∈ (⟨∅, {"A"}⟩ : Tracker String).Lazy ∧
      "A" ∈ Sampler.FindPeers (⟨fun _ => ["B", "A"]⟩ : Sampler String) DefaultFanout ∧
      Disjoint (⟨∅, {"A"}⟩ : Tracker String).Eager (⟨∅, {"A"}⟩ : Tracker String).Lazy) ∧
    ("A" ∈ (Start (⟨∅, {"A"}⟩ : Tracker String) ⟨fun _ => ["B", "A"]⟩).Eager ∧
      "A" ∈ (Start (⟨∅, {"A"}⟩ : Tracker String) ⟨fun _ => ["B", "A"]⟩).Lazy ∧
      ¬ Disjoint (Start (⟨∅, {"A"}⟩ : Tracker String) ⟨fun _ => ["B", "A"]⟩).Eager
        (Start (⟨∅, {"A"}⟩ : Tracker String) ⟨fun _ => ["B", "A"]⟩).Lazy) :=
  ⟨⟨by decide, by decide, by decide⟩,
   C12_start_no_cross_check (⟨∅, {"A"}⟩ : Tracker String) ⟨fun _ => ["B", "A"]⟩ "A"
     (by decide) (by decide)⟩

/-- C13. No peer is ever forgotten: in every state and for every call of a public operation
(`Start` with any sampler, `OnGraft p` or `OnPrune p` for any `p`, succeeding or failing),
every peer that is in `Eager` or `Lazy` before the call is in `Eager` or `Lazy` after it. -/
theorem C13_no_peer_forgotten (t : Tracker ID) (c : Call ID) (q : ID)
    (h : q ∈ t.Eager ∨ q ∈ t.Lazy) :
    q ∈ (Call.apply t c).Eager ∨ q ∈ (Call.apply t c).Lazy := by
  cases c with
  | start sampler =>
    simp only [Call.apply, Start_Eager, Start_Lazy, Finset.mem_union]
    tauto
  | onGraft p =>
    simp only [Call.apply, OnGraft_Eager, OnGraft_Lazy, Finset.mem_insert, Finset.mem_erase]
    by_cases hq : q = p
    · exact Or.inl (Or.inl hq)
    · tauto
  | onPrune p =>
    simp only [Call.apply, OnPrune_Eager, OnPrune_Lazy, Finset.mem_insert, Finset.mem_erase]
    by_cases hq : q = p
    · exact Or.inr (Or.inl hq)
    · tauto

theorem C13_no_peer_forgotten_witness :
    ("B" ∈ (⟨{"A", "B"}, {"B"}⟩ : Tracker String).Eager ∨
      "B" ∈ (⟨{"A", "B"}, {"B"}⟩ : Tracker String).Lazy) ∧
    ("B" ∈ (Call.apply (⟨{"A", "B"}, {"B"}⟩ : Tracker String) (Call.onPrune "B")).Eager ∨
      "B" ∈ (Call.apply (⟨{"A", "B"}, {"B"}⟩ : Tracker String) (Call.onPrune "B")).Lazy) :=
  ⟨by decide,
   C13_no_peer_forgotten (⟨{"A", "B"}, {"B"}⟩ : Tracker String) (Call.onPrune "B") "B"
     (by decide)⟩

/-- C14, the claim as stated fails: on a new tracker, a graft and a prune of `"A"` that both
run their first critical section before either runs its second have both completed after four
steps, and `"A"` is then in both `Eager` and `Lazy`. -/
theorem C14_overlapping_graft_and_prune :
    (runEvents (⟨NewTracker, []⟩ : Shared String)
      [Event.enter (Transition.graft "A"), Event.enter (Transition.prune "A"),
        Event.complete 0, Event.complete 0]).inflight = [] ∧
    "A" ∈ (runEvents (⟨NewTracker, []⟩ : Shared String)
      [Event.enter (Transition.graft "A"), Event.enter (Transition.prune "A"),
        Event.complete 0, Event.complete 0]).tracker.Eager ∧
    "A" ∈ (runEvents (⟨NewTracker, []⟩ : Shared String)
      [Event.enter (Transition.graft "A"), Event.enter (Transition.prune "A"),
        Event.complete 0, Event.complete 0]).tracker.Lazy := by
  decide

/-- C14, amended. Consistency under concurrency: when `OnGraft` and `OnPrune` calls run
concurrently on a new tracker, each call being two atomic steps that interleave arbitrarily
with the steps of other calls, and no `OnGraft` and `OnPrune` of the same peer are in flight
at the same time, then no peer is in both `Eager` and `Lazy`, at every point of the run and
so once every call in flight has completed. -/
theorem C14_disjoint_when_kept_apart (events : List (Event ID)) (p : ID)
    (h : keepsApart (⟨NewTracker, []⟩ : Shared ID) events = true) :
    ¬ (p ∈ (runEvents (⟨NewTracker, []⟩ : Shared ID) events).tracker.Eager ∧
       p ∈ (runEvents (⟨NewTracker, []⟩ : Shared ID) events).tracker.Lazy) := by
  have h0 : Shared.Safe (⟨NewTracker, []⟩ : Shared ID) := by
    simp [Shared.Safe, NewTracker]
  have hs := runEvents_safe events _ h0 h
  intro ⟨he, hl⟩
  exact Finset.disjoint_left.mp hs.1 he hl

theorem C14_disjoint_when_kept_apart_witness :
    keepsApart (⟨NewTracker, []⟩ : Shared String)
      [Event.enter (Transition.graft "A"), Event.enter (Transition.prune "B"),
        Event.enter (Transition.graft "A"), Event.complete 1, Event.complete 0,
        Event.complete 0, Event.enter (Transition.prune "A"), Event.complete 0] = true ∧
    (runEvents (⟨NewTracker, []⟩ : Shared String)
      [Event.enter (Transition.graft "A"), Event.enter (Transition.prune "B"),
        Event.enter (Transition.graft "A"), Event.complete 1, Event.complete 0,
        Event.complete 0, Event.enter (Transition.prune "A"), Event.complete 0]).inflight
      = [] ∧
    ¬ ("A" ∈ (runEvents (⟨NewTracker, []⟩ : Shared String)
      [Event.enter (Transition.graft "A"), Event.enter (Transition.prune "B"),
        Event.enter (Transition.graft "A"), Event.complete 1, Event.complete 0,
        Event.complete 0, Event.enter (Transition.prune "A"), Event.complete 0]).tracker.Eager ∧
      "A" ∈ (runEvents (⟨NewTracker, []⟩ : Shared String)
      [Event.enter (Transition.graft "A"), Event.enter (Transition.prune "B"),
        Event.enter (Transition.graft "A"), Event.complete 1, Event.complete 0,
        Event.complete 0, Event.enter (Transition.prune "A"), Event.complete 0]).tracker.Lazy) :=
  ⟨by decide, by decide,
   C14_disjoint_when_kept_apart
     [Event.enter (Transition.graft "A"), Event.enter (Transition.prune "B"),
       Event.enter (Transition.graft "A"), Event.complete 1, Event.complete 0,
       Event.complete 0, Event.enter (Transition.prune "A"), Event.complete 0] "A"
     (by decide)⟩

/-- C15. Transition window: a transition is its two critical sections one after the other,
and in every state in which `p` is in exactly one set, the state between the two critical
sections of the transition that moves `p` to the other set has `p` in neither `Eager` nor
`Lazy`, while the membership of every other peer is as before. -/
theorem C15_transition_window (t : Tracker ID) (p : ID) :
    (p ∈ t.Lazy → p ∉ t.Eager →
      OnGraft t p = insertEager (deleteLazy t p) p ∧
      p ∉ (deleteLazy t p).Eager ∧ p ∉ (deleteLazy t p).Lazy ∧
      ∀ q, q ≠ p → ((q ∈ (deleteLazy t p).Eager ↔ q ∈ t.Eager) ∧
        (q ∈ (deleteLazy t p).Lazy ↔ q ∈ t.Lazy))) ∧
    (p ∈ t.Eager → p ∉ t.Lazy →
      OnPrune t p = insertLazy (deleteEager t p) p ∧
      p ∉ (deleteEager t p).Eager ∧ p ∉ (deleteEager t p).Lazy ∧
      ∀ q, q ≠ p → ((q ∈ (deleteEager t p).Eager ↔ q ∈ t.Eager) ∧
        (q ∈ (deleteEager t p).Lazy ↔ q ∈ t.Lazy))) := by
  constructor
  · intro _ hE
    refine ⟨rfl, ?_, ?_, ?_⟩
    · rw [deleteLazy_Eager]; exact hE
    · rw [deleteLazy_Lazy]; simp
    · intro q hq
      rw [deleteLazy_Eager, deleteLazy_Lazy]
      simp [hq]
  · intro _ hL
    refine ⟨rfl, ?_, ?_, ?_⟩
    · rw [deleteEager_Eager]; simp
    · rw [deleteEager_Lazy]; exact hL
    · intro q hq
      rw [deleteEager_Eager, deleteEager_Lazy]
      simp [hq]

theorem C15_transition_window_witness :
    (("A" ∈ (⟨{"B"}, {"A", "C"}⟩ : Tracker String).Lazy ∧
        "A" ∉ (⟨{"B"}, {"A", "C"}⟩ : Tracker String).Eager) ∧
      deleteLazy (⟨{"B"}, {"A", "C"}⟩ : Tracker String) "A" = ⟨{"B"}, {"C"}⟩ ∧
      "A" ∉ (deleteLazy (⟨{"B"}, {"A", "C"}⟩ : Tracker String) "A").Eager ∧
      "A" ∉ (deleteLazy (⟨{"B"}, {"A", "C"}⟩ : Tracker String) "A").Lazy ∧
      ("C" ∈ (deleteLazy (⟨{"B"}, {"A", "C"}⟩ : Tracker String) "A").Lazy ↔
        "C" ∈ (⟨{"B"}, {"A", "C"}⟩ : Tracker String).Lazy)) ∧
    (("A" ∈ (⟨{"A", "C"}, {"B"}⟩ : Tracker String).Eager ∧
        "A" ∉ (⟨{"A", "C"}, {"B"}⟩ : Tracker String).Lazy) ∧
      deleteEager (⟨{"A", "C"}, {"B"}⟩ : Tracker String) "A" = ⟨{"C"}, {"B"}⟩ ∧
      "A" ∉ (deleteEager (⟨{"A", "C"}, {"B"}⟩ : Tracker String) "A").Eager ∧
      "A" ∉ (deleteEager (⟨{"A", "C"}, {"B"}⟩ : Tracker String) "A").Lazy ∧
      ("C" ∈ (deleteEager (⟨{"A", "C"}, {"B"}⟩ : Tracker String) "A").Eager ↔
        "C" ∈ (⟨{"A", "C"}, {"B"}⟩ : Tracker String).Eager)) :=
  ⟨⟨⟨by decide, by decide⟩, by decide,
    ((C15_transition_window (⟨{"B"}, {"A", "C"}⟩ : Tracker String) "A").1
      (by decide) (by decide)).2.1,
    ((C15_transition_window (⟨{"B"}, {"A", "C"}⟩ : Tracker String) "A").1
      (by decide) (by decide)).2.2.1,
    (((C15_transition_window (⟨{"B"}, {"A", "C"}⟩ : Tracker String) "A").1
      (by decide) (by decide)).2.2.2 "C" (by decide)).2⟩,
   ⟨⟨by decide, by decide⟩, by decide,
    ((C15_transition_window (⟨{"A", "C"}, {"B"}⟩ : Tracker String) "A").2
      (by decide) (by decide)).2.1,
    ((C15_transition_window (⟨{"A", "C"}, {"B"}⟩ : Tracker String) "A").2
      (by decide) (by decide)).2.2.1,
    (((C15_transition_window (⟨{"A", "C"}, {"B"}⟩ : Tracker String) "A").2
      (by decide) (by decide)).2.2.2 "C" (by decide)).1⟩⟩

/-- C16. Re-running `Start` is a no-op for entries already present: in every state, if the
sampler returns on a second `Start` the same candidates as on the first, the tracker after
the second `Start` is the tracker after the first; nothing is cleared and nothing new is
inserted. -/
theorem C16_start_twice (t : Tracker ID) (first second : Sampler ID)
    (h : second.FindPeers DefaultFanout = first.FindPeers DefaultFanout) :
    Start (Start t first) second = Start t first := by
  apply Tracker.eq_of_sets
  · have h10 : second.FindPeers 10 = first.FindPeers 10 := h
    rw [Start_Eager (Start t first) second, Start_Eager t first, h10]
    ext a
    simp only [Finset.mem_union]
    tauto
  · rw [Start_Lazy]

theorem C16_start_twice_witness :
    Sampler.FindPeers (⟨fun _ => ["A", "B"]⟩ : Sampler String) DefaultFanout
      = Sampler.FindPeers (⟨fun n => if n = 10 then ["A", "B"] else []⟩ : Sampler String)
          DefaultFanout ∧
    Start (Start (⟨{"C"}, {"A"}⟩ : Tracker String)
        ⟨fun n => if n = 10 then ["A", "B"] else []⟩) ⟨fun _ => ["A", "B"]⟩
      = Start (⟨{"C"}, {"A"}⟩ : Tracker String)
          ⟨fun n => if n = 10 then ["A", "B"] else []⟩ :=
  ⟨by decide,
   C16_start_twice (⟨{"C"}, {"A"}⟩ : Tracker String)
     ⟨fun n => if n = 10 then ["A", "B"] else []⟩ ⟨fun _ => ["A", "B"]⟩ (by decide)⟩

/-- C17. Frame: in every state and for every pair of distinct peers `p` and `q`, `OnGraft p`
and `OnPrune p`, succeeding or failing, leave the membership of `q` in `Eager` and in `Lazy`
as it was before the call. -/
theorem C17_frame (t : Tracker ID) (p q : ID) (h : q ≠ p) :
    ((q ∈ (OnGraft t p).1.Eager ↔ q ∈ t.Eager) ∧ (q ∈ (OnGraft t p).1.Lazy ↔ q ∈ t.Lazy)) ∧
    ((q ∈ (OnPrune t p).1.Eager ↔ q ∈ t.Eager) ∧ (q ∈ (OnPrune t p).1.Lazy ↔ q ∈ t.Lazy)) := by
  rw [OnGraft_Eager, OnGraft_Lazy, OnPrune_Eager, OnPrune_Lazy]
  simp [h]

theorem C17_frame_witness :
    "B" ≠ "A" ∧
    (("B" ∈ (OnGraft (⟨{"A"}, {"A", "B"}⟩ : Tracker String) "A").1.Eager ↔
        "B" ∈ (⟨{"A"}, {"A", "B"}⟩ : Tracker String).Eager) ∧
      ("B" ∈ (OnGraft (⟨{"A"}, {"A", "B"}⟩ : Tracker String) "A").1.Lazy ↔
        "B" ∈ (⟨{"A"}, {"A", "B"}⟩ : Tracker String).Lazy)) ∧
    (("B" ∈ (OnPrune (⟨{"A"}, {"A", "B"}⟩ : Tracker String) "A").1.Eager ↔
        "B" ∈ (⟨{"A"}, {"A", "B"}⟩ : Tracker String).Eager) ∧
      ("B" ∈ (OnPrune (⟨{"A"}, {"A", "B"}⟩ : Tracker String) "A").1.Lazy ↔
        "B" ∈ (⟨{"A"}, {"A", "B"}⟩ : Tracker String).Lazy)) :=
  ⟨by decide, C17_frame (⟨{"A"}, {"A", "B"}⟩ : Tracker String) "A" "B" (by decide)⟩

/-- C18. Transitions on distinct peers commute: in every state, for two calls, each an
`OnGraft` or an `OnPrune`, on distinct peers, running the first and then the second gives the
same final `Eager` and `Lazy` as running the second and then the first, and each call returns
the same result (success or its error) in both orders. -/
theorem C18_transitions_commute (t : Tracker ID) (c d : Transition ID)
    (h : Transition.peer c ≠ Transition.peer d) :
    (Transition.call (Transition.call t c).1 d).1
      = (Transition.call (Transition.call t d).1 c).1 ∧
    (Transition.call (Transition.call t d).1 c).2 = (Transition.call t c).2 ∧
    (Transition.call (Transition.call t c).1 d).2 = (Transition.call t d).2 := by
  refine ⟨?_, ?_, ?_⟩
  · have hcd : ∀ a, c = Transition.graft a → d ≠ Transition.prune a := by
      rintro a rfl rfl
      exact h rfl
    have hdc : ∀ a, d = Transition.graft a → c ≠ Transition.prune a := by
      rintro a rfl rfl
      exact h rfl
    apply Tracker.eq_of_sets
    · ext a
      have h1 := hcd a
      have h2 := hdc a
      rw [Transition.mem_call_Eager, Transition.mem_call_Eager, Transition.mem_call_Eager,
        Transition.mem_call_Eager]
      tauto
    · ext a
      have h1 := hcd a
      have h2 := hdc a
      rw [Transition.mem_call_Lazy, Transition.mem_call_Lazy, Transition.mem_call_Lazy,
        Transition.mem_call_Lazy]
      tauto
  · exact Transition.call_result_congr t _ c (Transition.call_Eager t d _ h)
      (Transition.call_Lazy t d _ h)
  · exact Transition.call_result_congr t _ d (Transition.call_Eager t c _ (Ne.symm h))
      (Transition.call_Lazy t c _ (Ne.symm h))

theorem C18_transitions_commute_witness :
    Transition.peer (Transition.graft "A") ≠ Transition.peer (Transition.prune "B") ∧
    (Transition.call (Transition.call (⟨{"A", "B"}, {"A"}⟩ : Tracker String)
        (Transition.graft "A")).1 (Transition.prune "B")).1
      = (Transition.call (Transition.call (⟨{"A", "B"}, {"A"}⟩ : Tracker String)
        (Transition.prune "B")).1 (Transition.graft "A")).1 ∧
    (Transition.call (Transition.call (⟨{"A", "B"}, {"A"}⟩ : Tracker String)
        (Transition.prune "B")).1 (Transition.graft "A")).2
      = (Transition.call (⟨{"A", "B"}, {"A"}⟩ : Tracker String) (Transition.graft "A")).2 ∧
    (Transition.call (Transition.call (⟨{"A", "B"}, {"A"}⟩ : Tracker String)
        (Transition.graft "A")).1 (Transition.prune "B")).2
      = (Transition.call (⟨{"A", "B"}, {"A"}⟩ : Tracker String) (Transition.prune "B")).2 :=
  ⟨by decide,
   C18_transitions_commute (⟨{"A", "B"}, {"A"}⟩ : Tracker String)
     (Transition.graft "A") (Transition.prune "B") (by decide)⟩

/-- C19. Prune then graft is the identity on an eager peer: in every state in which `p` is in
`Eager` and not in `Lazy`, `OnPrune p` followed directly by `OnGraft p` both succeed and
leave `Eager` and `Lazy` equal to the sets before the two calls; in every state in which `p`
is in `Lazy` and not in `Eager`, `OnGraft p` followed by `OnPrune p` both succeed and restore
both sets. -/
theorem C19_prune_graft_identity (t : Tracker ID) (p : ID) :
    (p ∈ t.Eager → p ∉ t.Lazy →
      (OnPrune t p).2 = none ∧ (OnGraft (OnPrune t p).1 p).2 = none ∧
      (OnGraft (OnPrune t p).1 p).1.Eager = t.Eager ∧
      (OnGraft (OnPrune t p).1 p).1.Lazy = t.Lazy) ∧
    (p ∈ t.Lazy → p ∉ t.Eager →
      (OnGraft t p).2 = none ∧ (OnPrune (OnGraft t p).1 p).2 = none ∧
      (OnPrune (OnGraft t p).1 p).1.Eager = t.Eager ∧
      (OnPrune (OnGraft t p).1 p).1.Lazy = t.Lazy) := by
  constructor
  · intro hE hL
    refine ⟨?_, ?_, ?_, ?_⟩
    · rw [OnPrune_result]; simp [hL]
    · rw [OnGraft_result, OnPrune_Eager]; simp
    · rw [OnGraft_Eager, OnPrune_Eager]; exact Finset.insert_erase hE
    · rw [OnGraft_Lazy, OnPrune_Lazy]; exact Finset.erase_insert hL
  · intro hL hE
    refine ⟨?_, ?_, ?_, ?_⟩
    · rw [OnGraft_result]; simp [hE]
    · rw [OnPrune_result, OnGraft_Lazy]; simp
    · rw [OnPrune_Eager, OnGraft_Eager]; exact Finset.erase_insert hE
    · rw [OnPrune_Lazy, OnGraft_Lazy]; exact Finset.insert_erase hL

theorem C19_prune_graft_identity_witness :
    (("A" ∈ (⟨{"A", "B"}, {"C"}⟩ : Tracker String).Eager ∧
        "A" ∉ (⟨{"A", "B"}, {"C"}⟩ : Tracker String).Lazy) ∧
      (OnPrune (⟨{"A", "B"}, {"C"}⟩ : Tracker String) "A").2 = none ∧
      (OnGraft (OnPrune (⟨{"A", "B"}, {"C"}⟩ : Tracker String) "A").1 "A").2 = none ∧
      (OnGraft (OnPrune (⟨{"A", "B"}, {"C"}⟩ : Tracker String) "A").1 "A").1.Eager
        = (⟨{"A", "B"}, {"C"}⟩ : Tracker String).Eager ∧
      (OnGraft (OnPrune (⟨{"A", "B"}, {"C"}⟩ : Tracker String) "A").1 "A").1.Lazy
        = (⟨{"A", "B"}, {"C"}⟩ : Tracker String).Lazy) ∧
    (("A" ∈ (⟨{"C"}, {"A", "B"}⟩ : Tracker String).Lazy ∧
        "A" ∉ (⟨{"C"}, {"A", "B"}⟩ : Tracker String).Eager) ∧
      (OnGraft (⟨{"C"}, {"A", "B"}⟩ : Tracker String) "A").2 = none ∧
      (OnPrune (OnGraft (⟨{"C"}, {"A", "B"}⟩ : Tracker String) "A").1 "A").2 = none ∧
      (OnPrune (OnGraft (⟨{"C"}, {"A", "B"}⟩ : Tracker String) "A").1 "A").1.Eager
        = (⟨{"C"}, {"A", "B"}⟩ : Tracker String).Eager ∧
      (OnPrune (OnGraft (⟨{"C"}, {"A", "B"}⟩ : Tracker String) "A").1 "A").1.Lazy
        = (⟨{"C"}, {"A", "B"}⟩ : Tracker String).Lazy) :=
  ⟨⟨⟨by decide, by decide⟩,
    (C19_prune_graft_identity (⟨{"A", "B"}, {"C"}⟩ : Tracker String) "A").1
      (by decide) (by decide)⟩,
   ⟨⟨by decide, by decide⟩,
    (C19_prune_graft_identity (⟨{"C"}, {"A", "B"}⟩ : Tracker String) "A").2
      (by decide) (by decide)⟩⟩

end Claims

end Plumtree
